import Mathlib

/-!
Shallow embedding of the cimir immediate-mode GUI core
(`src/renderer.rs`, `src/animation.rs`, `src/application.rs`, `src/key.rs`,
`src/primitives/label.rs`).

Modelling conventions:
* `f32` values (coordinates, sizes, durations) are modelled as exact
  rationals `ℚ`; `u32` identifiers as `ℕ` (ids are only compared, never
  arithmetically manipulated).
* Rust `Vec` used as a stack (`layout_stack`, `hitbox_stack`) is a Lean
  `List` whose HEAD is the top of the stack (`push` = cons,
  `pop`/`last()` = head).
* `std::collections::HashMap` is modelled by its contents: a duplicate-free
  association list in insertion order (`mapInsert` replaces in place or
  appends).  The map's ITERATION order (`.iter()`) is unspecified in Rust,
  so every function that iterates the map takes the visiting order as an
  explicit parameter, constrained to be a permutation of the contents.
* `Instant`/`Duration` become rational timestamps/durations in
  milliseconds, passed explicitly (`now` parameters) instead of read from a
  real-time clock.
* A Rust method that can panic (`unwrap`, `try_into().unwrap()`) returns
  `Option`, `none` meaning the panic.  For the scoped-cursor combinators the
  body is additionally allowed to panic: there the body returns
  `Except Renderer Renderer`, where `Except.error s` is a panic that starts
  unwinding with the renderer left in state `s` (observable by a caller that
  catches the unwind).
-/

namespace Cimir

/-- `MouseInfo` from `src/renderer.rs`. -/
structure MouseInfo where
  x : ℚ
  y : ℚ
  lmouseclick : Bool
  rmouseclick : Bool
deriving Repr, DecidableEq

/-- `Hitbox` from `src/renderer.rs`: an area in the window that senses
clicks/hovers.  Field order follows the Rust struct (`x`, `y`, `height`,
`width`). -/
structure Hitbox where
  x : ℚ
  y : ℚ
  height : ℚ
  width : ℚ
deriving Repr, DecidableEq

/-- `Hitbox::new(x, y, width, height)`. -/
def Hitbox.new (x y width height : ℚ) : Hitbox :=
  { x := x, y := y, height := height, width := width }

/-- `Hitbox::contains_pos`: inclusive on all four edges. -/
def Hitbox.contains_pos (hb : Hitbox) (x y : ℚ) : Bool :=
  let left := hb.x
  let right := left + hb.width
  let top := hb.y
  let bottom := top + hb.height
  (decide (left ≤ x) && decide (x ≤ right)) &&
    (decide (top ≤ y) && decide (y ≤ bottom))

/-- `Transition` from `src/animation.rs` (`Linear(from, to)`). -/
inductive Transition where
  | Linear (a b : ℚ)
deriving Repr, DecidableEq

/-- `Transition::calculate`. -/
def Transition.calculate : Transition → ℚ → ℚ
  | .Linear a b, progress =>
      let d := b - a
      a + d * progress

/-- `Transition::get_done`. -/
def Transition.get_done : Transition → ℚ
  | .Linear _ b => b

/-- `Animation` from `src/animation.rs`.  `start_time` is the `Instant` the
animation started, in milliseconds. -/
structure Animation where
  start_time : ℚ
  duration : ℚ
  transitions : List Transition
  done : Bool
deriving Repr, DecidableEq

/-- `Animation::new`, with `Instant::now()` passed in as `now`. -/
def Animation.new (now : ℚ) (duration : ℚ) (transitions : List Transition) :
    Animation :=
  { start_time := now, duration := duration, transitions := transitions,
    done := false }

/-- `Animation::reset`, with `Instant::now()` passed in as `now`. -/
def Animation.reset (a : Animation) (now : ℚ) : Animation :=
  { a with done := false, start_time := now }

/-- `Animation::animate`, with the current time passed in as `now`
(the Rust code reads `self.start_time.elapsed()`, i.e. `now - start_time`).
Returns the interpolated values together with the updated animation. -/
def Animation.animate (a : Animation) (now : ℚ) : List ℚ × Animation :=
  if a.done then
    (a.transitions.map Transition.get_done, a)
  else
    let progress := min ((now - a.start_time) / a.duration) 1
    let a1 := if progress = 1 then { a with done := true } else a
    (a.transitions.map (fun t => t.calculate progress), a1)

/-- `Key` from `src/key.rs`. -/
inductive Key where
  | A | B | C | D | E | F | G | H | I | J | K | L | M
  | N | O | P | Q | R | S | T | U | V | W | X | Y | Z
  | One | Two | Three | Four | Five | Six | Seven | Eight | Nine | Zero
  | F1 | F2 | F3 | F4 | F5 | F6 | F7 | F8 | F9 | F10 | F11 | F12
  | Backspace | Equals | Minus | Enter | Escape | Tab | Space
  | LControl | LAlt | LShift | LWin | RControl | RAlt | RShift | RWin
deriving Repr, DecidableEq

/-- `Layout` from `src/renderer.rs`. -/
inductive Layout where
  | Row (height x y : ℚ)
  | Col (width x y : ℚ)
deriving Repr, DecidableEq

/-- `HashMap::get`: look a key up in the contents list. -/
def mapLookup {α : Type} : List (ℕ × α) → ℕ → Option α
  | [], _ => none
  | (k, v) :: rest, id => if k = id then some v else mapLookup rest id

/-- `HashMap::insert`: replace the value in place if the key is present,
otherwise append the new entry. -/
def mapInsert {α : Type} : List (ℕ × α) → ℕ → α → List (ℕ × α)
  | [], k, v => [(k, v)]
  | (k1, v1) :: rest, k, v =>
      if k1 = k then (k, v) :: rest else (k1, v1) :: mapInsert rest k v

/-- The state of `Renderer` from `src/renderer.rs`, restricted to the fields
the layout/animation/interaction core reads or writes.  The GPU frame, the
display, the shader programs, the font and the texture table are external
backend resources (out of scope); shape extents that the backend would
compute (glyph metrics) are passed in as parameters where needed. -/
structure Renderer where
  viewport : ℚ × ℚ
  cursor : ℚ × ℚ
  layout_stack : List Layout
  animations : List (ℕ × Animation)
  mouse : MouseInfo
  input : List Char
  keys : List Key
  active_id : Option ℕ
  hot_id : Option ℕ
  hitboxes : List (ℕ × Hitbox)
  hitbox_stack : List Hitbox
deriving Repr, DecidableEq

/-- `Renderer::new`: note the sentinel `Layout::Col` pushed onto the layout
stack at construction. -/
def Renderer.new : Renderer :=
  { viewport := (0, 0)
    cursor := (0, 0)
    layout_stack := [Layout.Col 0 0 0]
    animations := []
    mouse := { x := 0, y := 0, lmouseclick := false, rmouseclick := false }
    input := []
    keys := []
    active_id := none
    hot_id := none
    hitboxes := []
    hitbox_stack := [] }

/-- `Renderer::is_active`. -/
def Renderer.is_active (r : Renderer) (id : ℕ) : Bool :=
  (r.active_id.map (fun aid => decide (aid = id))).getD false

/-- `Renderer::is_hot`. -/
def Renderer.is_hot (r : Renderer) (id : ℕ) : Bool :=
  (r.hot_id.map (fun aid => decide (aid = id))).getD false

/-- `Renderer::clear_hitboxes`. -/
def Renderer.clear_hitboxes (r : Renderer) : Renderer :=
  { r with hitboxes := [] }

/-- `Renderer::reset_cursor`. -/
def Renderer.reset_cursor (r : Renderer) : Renderer :=
  { r with cursor := (0, 0) }

/-- `Renderer::get_hit`.  `self.hitboxes.iter().find(..)` visits the
`HashMap` entries in an order the standard library leaves unspecified, so
the visiting order is the explicit argument `entries`; theorems will
constrain it to be a permutation of the stored contents. -/
def get_hit (entries : List (ℕ × Hitbox)) (x y : ℚ) : Option ℕ :=
  (entries.find? (fun p => p.2.contains_pos x y)).map (fun p => p.1)

/-- The hitbox part of `Renderer::handle_new_shape`: grow the innermost open
hitbox (`self.hitbox_stack.iter_mut().last()`), if any, to the componentwise
maximum with the shape's own extent. -/
def growTop (stack : List Hitbox) (shape_width shape_height : ℚ) :
    List Hitbox :=
  match stack with
  | [] => []
  | hb :: rest =>
      { hb with
        width := if shape_width > hb.width then shape_width else hb.width,
        height :=
          if shape_height > hb.height then shape_height else hb.height }
        :: rest

/-- `Renderer::handle_new_shape`: advance the cursor along the top layout
context's main axis, fold the shape into the context's cross-axis maximum,
and grow the innermost open hitbox.  `none` is the panic of
`self.layout_stack.iter_mut().last().unwrap()` on an empty stack. -/
def Renderer.handle_new_shape (r : Renderer)
    (shape_width shape_height : ℚ) : Option Renderer :=
  match r.layout_stack with
  | [] => none
  | Layout.Row height x y :: rest =>
      let r1 :=
        { r with
          cursor := (r.cursor.1 + shape_width, r.cursor.2)
          layout_stack :=
            Layout.Row (if shape_height > height then shape_height else height)
              x y :: rest }
      some { r1 with hitbox_stack := growTop r1.hitbox_stack shape_width shape_height }
  | Layout.Col width x y :: rest =>
      let r1 :=
        { r with
          cursor := (r.cursor.1, r.cursor.2 + shape_height)
          layout_stack :=
            Layout.Col (if shape_width > width then shape_width else width)
              x y :: rest }
      some { r1 with hitbox_stack := growTop r1.hitbox_stack shape_width shape_height }

/-- `Renderer::space`: advance the cursor along the top layout context's own
main axis.  `none` is the panic of `.iter().last().unwrap()`. -/
def Renderer.space (r : Renderer) (size : ℚ) : Option Renderer :=
  match r.layout_stack with
  | [] => none
  | Layout.Row _ _ _ :: _ =>
      some { r with cursor := (r.cursor.1 + size, r.cursor.2) }
  | Layout.Col _ _ _ :: _ =>
      some { r with cursor := (r.cursor.1, r.cursor.2 + size) }

/-- `Renderer::consume_input` (`std::mem::take(&mut self.input)`). -/
def Renderer.consume_input (r : Renderer) : List Char × Renderer :=
  (r.input, { r with input := [] })

/-- `Renderer::consume_keys` (`std::mem::take(&mut self.keys)`). -/
def Renderer.consume_keys (r : Renderer) : List Key × Renderer :=
  (r.keys, { r with keys := [] })

/-- `Renderer::next_frame`: reset the cursor and refresh the viewport (the
window size is external, passed in as `vp`); starting a new GPU frame and
the timing stamp are backend effects with no bearing on the modelled state. -/
def Renderer.next_frame (r : Renderer) (vp : ℚ × ℚ) : Renderer :=
  { r with cursor := (0, 0), viewport := vp }

/-- `Renderer::done`: finish the GPU frame (external), record the frame time
(external), then clear both input queues unconditionally. -/
def Renderer.done (r : Renderer) : Renderer :=
  { r with input := [], keys := [] }

/-- `Renderer::animate::<N>`, with `Instant::now()` passed as `now`.  The
caller supplies `transitions : &[Transition; N]`, so `N` is
`transitions.length`.  The returned value list is handed to the body after
`result.try_into().unwrap()`, which succeeds exactly when the vector's
length equals `N`; `none` models that `unwrap` panicking. -/
def Renderer.animate (r : Renderer) (id : ℕ) (duration : ℚ)
    (transitions : List Transition) (now : ℚ) :
    Option (List ℚ × Renderer) :=
  let res :=
    match mapLookup r.animations id with
    | some animation =>
        let p := animation.animate now
        (p.1, { r with animations := mapInsert r.animations id p.2 })
    | none =>
        let animation := Animation.new now duration transitions
        let p := animation.animate now
        (p.1, { r with animations := mapInsert r.animations id p.2 })
  if res.1.length = transitions.length then some res else none

/-- `Renderer::reset_animation`, with `Instant::now()` passed as `now`. -/
def Renderer.reset_animation (r : Renderer) (id : ℕ) (now : ℚ) : Renderer :=
  match mapLookup r.animations id with
  | some animation =>
      { r with animations := mapInsert r.animations id (animation.reset now) }
  | none => r

/-- The cursor value `Renderer::set_cursor` installs before running the
body: a negative coordinate means distance from the right/bottom edge of
the viewport (`self.width() + x` / `self.height() + y`). -/
def entryCursor (r : Renderer) (x y : ℚ) : ℚ × ℚ :=
  ((if x < 0 then r.viewport.1 + x else x),
   (if y < 0 then r.viewport.2 + y else y))

/-- `Renderer::set_cursor(x, y, f)`.  The body may return normally
(`Except.ok`) or panic (`Except.error`, carrying the state at the moment of
the panic).  The restoring assignment `self.cursor = cursor_copy` is a plain
statement after `f(self)`, so it runs only on normal return; a panic keeps
unwinding past it. -/
def Renderer.set_cursor (r : Renderer) (x y : ℚ)
    (f : Renderer → Except Renderer Renderer) : Except Renderer Renderer :=
  let cursor_copy := r.cursor
  let r1 := { r with cursor := entryCursor r x y }
  match f r1 with
  | .ok r2 => .ok { r2 with cursor := cursor_copy }
  | .error r2 => .error r2

/-- `Renderer::move_cursor(x, y, f)`: like `set_cursor` but offsetting the
cursor; same restore-on-normal-return-only structure. -/
def Renderer.move_cursor (r : Renderer) (x y : ℚ)
    (f : Renderer → Except Renderer Renderer) : Except Renderer Renderer :=
  let cursor_copy := r.cursor
  let r1 := { r with cursor := (r.cursor.1 + x, r.cursor.2 + y) }
  match f r1 with
  | .ok r2 => .ok { r2 with cursor := cursor_copy }
  | .error r2 => .error r2

/-- The public renderer operations an application's render callback can
issue, as a command language: closure arguments become nested command
lists.  Shape extents that the Rust code receives from the backend (glyph
metrics for `text`/`label`) or from the caller (`rectangle`/`texture`
sizes) are constructor parameters.  For `label` the parameters are the
style paddings and minimum width plus the font-derived text metrics. -/
inductive Cmd where
  | rectangle (width height : ℚ)
  | text (width height : ℚ)
  | texture (width height : ℚ)
  | label (minWidth padLeft padRight padTop padBottom textWidth fontSize drawnWidth drawnHeight : ℚ)
  | space (n : ℚ)
  | row (body : List Cmd)
  | col (body : List Cmd)
  | set_cursor (x y : ℚ) (body : List Cmd)
  | move_cursor (dx dy : ℚ) (body : List Cmd)
  | hitbox (id : ℕ) (body : List Cmd)
  | consume_input
  | consume_keys
  | next_frame (vp : ℚ × ℚ)
  | done
deriving Repr

mutual

/-- Execute one renderer operation.  `none` is a panic (an `unwrap` failing
inside the operation or inside its body); in the command language a panic
in a body simply propagates, as Rust unwinding does when nobody catches it.
Each arm is the direct translation of the corresponding method of
`src/renderer.rs` (for `label`, of `src/primitives/label.rs`, whose
`set_cursor` call is inlined). -/
def execCmd : Cmd → Renderer → Option Renderer
  | .rectangle width height, s => s.handle_new_shape width height
  | .text width height, s => s.handle_new_shape width height
  | .texture width height, s => s.handle_new_shape width height
  | .label minWidth padLeft padRight padTop padBottom textWidth fontSize drawnWidth drawnHeight, s =>
      let x := s.cursor.1
      let y := s.cursor.2
      let rect_width := (max textWidth minWidth) + padLeft + padRight
      let rect_height := fontSize + padTop + padBottom - 2 * (3 / 2)
      let text_x := x + padLeft
      let text_y := y + padTop - 2 * 2
      match s.handle_new_shape rect_width rect_height with
      | none => none
      | some s1 =>
          let cursor_copy := s1.cursor
          let s2 := { s1 with cursor := entryCursor s1 text_x text_y }
          match s2.handle_new_shape drawnWidth drawnHeight with
          | none => none
          | some s3 => some { s3 with cursor := cursor_copy }
  | .space n, s => s.space n
  | .row body, s =>
      let s1 :=
        { s with layout_stack :=
            Layout.Row 0 s.cursor.1 s.cursor.2 :: s.layout_stack }
      match execCmds body s1 with
      | none => none
      | some s2 =>
          match s2.layout_stack with
          | [] => none
          | Layout.Row height x y :: rest =>
              some { s2 with layout_stack := rest, cursor := (x, y + height) }
          | Layout.Col _ _ _ :: rest =>
              some { s2 with layout_stack := rest }
  | .col body, s =>
      let s1 :=
        { s with layout_stack :=
            Layout.Col 0 s.cursor.1 s.cursor.2 :: s.layout_stack }
      match execCmds body s1 with
      | none => none
      | some s2 =>
          match s2.layout_stack with
          | [] => none
          | Layout.Col width x y :: rest =>
              some { s2 with layout_stack := rest, cursor := (x + width, y) }
          | Layout.Row _ _ _ :: rest =>
              some { s2 with layout_stack := rest }
  | .set_cursor x y body, s =>
      let cursor_copy := s.cursor
      let s1 := { s with cursor := entryCursor s x y }
      match execCmds body s1 with
      | none => none
      | some s2 => some { s2 with cursor := cursor_copy }
  | .move_cursor dx dy body, s =>
      let cursor_copy := s.cursor
      let s1 := { s with cursor := (s.cursor.1 + dx, s.cursor.2 + dy) }
      match execCmds body s1 with
      | none => none
      | some s2 => some { s2 with cursor := cursor_copy }
  | .hitbox id body, s =>
      let s1 :=
        { s with hitbox_stack :=
            Hitbox.new s.cursor.1 s.cursor.2 0 0 :: s.hitbox_stack }
      match execCmds body s1 with
      | none => none
      | some s2 =>
          match s2.hitbox_stack with
          | [] => none
          | hb :: rest =>
              some { s2 with hitbox_stack := rest,
                             hitboxes := mapInsert s2.hitboxes id hb }
  | .consume_input, s => some (s.consume_input).2
  | .consume_keys, s => some (s.consume_keys).2
  | .next_frame vp, s => some (s.next_frame vp)
  | .done, s => some s.done

/-- Execute a sequence of renderer operations. -/
def execCmds : List Cmd → Renderer → Option Renderer
  | [], s => some s
  | c :: cs, s =>
      match execCmd c s with
      | none => none
      | some s1 => execCmds cs s1

end

/-- `ApplicationWrapper::call_render` (`src/application.rs`): begin the
frame, resolve `hot_id` from the PREVIOUS frame's hitbox table (visited in
the `HashMap`'s unspecified iteration order `order`), clear the mouse click
flags, clear the hitbox table, run the application's render body, then
finish the frame.  The snapshot taken right before the render body runs is
exposed separately as `frameBegin`. -/
def frameBegin (r : Renderer) (order : List (ℕ × Hitbox)) (vp : ℚ × ℚ) :
    Renderer :=
  let r1 := r.next_frame vp
  let r2 := { r1 with hot_id := get_hit order r1.mouse.x r1.mouse.y }
  let r3 :=
    { r2 with mouse :=
        { r2.mouse with lmouseclick := false, rmouseclick := false } }
  r3.clear_hitboxes

/-- `ApplicationWrapper::call_render`, one whole frame. -/
def call_render (r : Renderer) (order : List (ℕ × Hitbox)) (vp : ℚ × ℚ)
    (body : List Cmd) : Option Renderer :=
  match execCmds body (frameBegin r order vp) with
  | none => none
  | some r5 => some r5.done

/-- State relations preserved by every renderer operation: the interaction
ids are untouched, both stacks keep their depth, and the input queues can
only shrink to empty (nothing inside a frame ever appends to them). -/
structure Pres (s s' : Renderer) : Prop where
  hot : s'.hot_id = s.hot_id
  active : s'.active_id = s.active_id
  llen : s'.layout_stack.length = s.layout_stack.length
  hlen : s'.hitbox_stack.length = s.hitbox_stack.length
  inp : s'.input = s.input ∨ s'.input = []
  kys : s'.keys = s.keys ∨ s'.keys = []

theorem Pres.same (s : Renderer) : Pres s s :=
  ⟨rfl, rfl, rfl, rfl, Or.inl rfl, Or.inl rfl⟩

theorem Pres.comp {a b c : Renderer} (h1 : Pres a b) (h2 : Pres b c) :
    Pres a c := by
  refine ⟨h2.hot.trans h1.hot, h2.active.trans h1.active,
    h2.llen.trans h1.llen, h2.hlen.trans h1.hlen, ?_, ?_⟩
  · rcases h2.inp with h | h
    · rw [h]; exact h1.inp
    · exact Or.inr h
  · rcases h2.kys with h | h
    · rw [h]; exact h1.kys
    · exact Or.inr h

theorem growTop_length (st : List Hitbox) (w h : ℚ) :
    (growTop st w h).length = st.length := by
  cases st <;> rfl

theorem handle_new_shape_pres {s s' : Renderer} {w h : ℚ}
    (hE : s.handle_new_shape w h = some s') : Pres s s' := by
  unfold Renderer.handle_new_shape at hE
  split at hE
  · exact absurd hE (by simp)
  · rename_i height x y rest heq
    injection hE with hE
    subst hE
    exact ⟨rfl, rfl, by simp [heq], by simp [growTop_length],
      Or.inl rfl, Or.inl rfl⟩
  · rename_i width x y rest heq
    injection hE with hE
    subst hE
    exact ⟨rfl, rfl, by simp [heq], by simp [growTop_length],
      Or.inl rfl, Or.inl rfl⟩

theorem space_pres {s s' : Renderer} {n : ℚ}
    (hE : s.space n = some s') : Pres s s' := by
  unfold Renderer.space at hE
  split at hE
  · exact absurd hE (by simp)
  · injection hE with hE
    subst hE
    exact ⟨rfl, rfl, rfl, rfl, Or.inl rfl, Or.inl rfl⟩
  · injection hE with hE
    subst hE
    exact ⟨rfl, rfl, rfl, rfl, Or.inl rfl, Or.inl rfl⟩

theorem pres_cursor (s : Renderer) (c : ℚ × ℚ) :
    Pres s { s with cursor := c } :=
  ⟨rfl, rfl, rfl, rfl, Or.inl rfl, Or.inl rfl⟩

mutual

theorem execCmd_pres : ∀ (c : Cmd) (s s' : Renderer),
    execCmd c s = some s' → Pres s s'
  | .rectangle _ _, _, _, hE => by
      simp only [execCmd] at hE
      exact handle_new_shape_pres hE
  | .text _ _, _, _, hE => by
      simp only [execCmd] at hE
      exact handle_new_shape_pres hE
  | .texture _ _, _, _, hE => by
      simp only [execCmd] at hE
      exact handle_new_shape_pres hE
  | .label _ _ _ _ _ _ _ _ _, s, s', hE => by
      simp only [execCmd] at hE
      split at hE
      · exact absurd hE (by simp)
      · rename_i s1 heq1
        split at hE
        · exact absurd hE (by simp)
        · rename_i s3 heq2
          injection hE with hE
          subst hE
          exact (((handle_new_shape_pres heq1).comp
            (pres_cursor s1 _)).comp (handle_new_shape_pres heq2)).comp
            (pres_cursor s3 _)
  | .space _, _, _, hE => by
      simp only [execCmd] at hE
      exact space_pres hE
  | .row body, s, s', hE => by
      simp only [execCmd] at hE
      split at hE
      · exact absurd hE (by simp)
      · rename_i s2 heq1
        have hp := execCmds_pres body _ s2 heq1
        split at hE
        · exact absurd hE (by simp)
        · rename_i height x y rest heq2
          injection hE with hE
          subst hE
          refine ⟨hp.hot, hp.active, ?_, hp.hlen, hp.inp, hp.kys⟩
          have h1 := hp.llen
          rw [heq2] at h1
          simpa using h1
        · rename_i width x y rest heq2
          injection hE with hE
          subst hE
          refine ⟨hp.hot, hp.active, ?_, hp.hlen, hp.inp, hp.kys⟩
          have h1 := hp.llen
          rw [heq2] at h1
          simpa using h1
  | .col body, s, s', hE => by
      simp only [execCmd] at hE
      split at hE
      · exact absurd hE (by simp)
      · rename_i s2 heq1
        have hp := execCmds_pres body _ s2 heq1
        split at hE
        · exact absurd hE (by simp)
        · rename_i width x y rest heq2
          injection hE with hE
          subst hE
          refine ⟨hp.hot, hp.active, ?_, hp.hlen, hp.inp, hp.kys⟩
          have h1 := hp.llen
          rw [heq2] at h1
          simpa using h1
        · rename_i height x y rest heq2
          injection hE with hE
          subst hE
          refine ⟨hp.hot, hp.active, ?_, hp.hlen, hp.inp, hp.kys⟩
          have h1 := hp.llen
          rw [heq2] at h1
          simpa using h1
  | .set_cursor x y body, s, s', hE => by
      simp only [execCmd] at hE
      split at hE
      · exact absurd hE (by simp)
      · rename_i s2 heq1
        injection hE with hE
        subst hE
        exact ((pres_cursor s _).comp
          (execCmds_pres body _ s2 heq1)).comp (pres_cursor s2 _)
  | .move_cursor dx dy body, s, s', hE => by
      simp only [execCmd] at hE
      split at hE
      · exact absurd hE (by simp)
      · rename_i s2 heq1
        injection hE with hE
        subst hE
        exact ((pres_cursor s _).comp
          (execCmds_pres body _ s2 heq1)).comp (pres_cursor s2 _)
  | .hitbox id body, s, s', hE => by
      simp only [execCmd] at hE
      split at hE
      · exact absurd hE (by simp)
      · rename_i s2 heq1
        have hp := execCmds_pres body _ s2 heq1
        split at hE
        · exact absurd hE (by simp)
        · rename_i hb rest heq2
          injection hE with hE
          subst hE
          refine ⟨hp.hot, hp.active, hp.llen, ?_, hp.inp, hp.kys⟩
          have h1 := hp.hlen
          rw [heq2] at h1
          simpa using h1
  | .consume_input, s, s', hE => by
      simp only [execCmd] at hE
      injection hE with hE
      subst hE
      exact ⟨rfl, rfl, rfl, rfl, Or.inr rfl, Or.inl rfl⟩
  | .consume_keys, s, s', hE => by
      simp only [execCmd] at hE
      injection hE with hE
      subst hE
      exact ⟨rfl, rfl, rfl, rfl, Or.inl rfl, Or.inr rfl⟩
  | .next_frame vp, s, s', hE => by
      simp only [execCmd] at hE
      injection hE with hE
      subst hE
      exact ⟨rfl, rfl, rfl, rfl, Or.inl rfl, Or.inl rfl⟩
  | .done, s, s', hE => by
      simp only [execCmd] at hE
      injection hE with hE
      subst hE
      exact ⟨rfl, rfl, rfl, rfl, Or.inr rfl, Or.inr rfl⟩

theorem execCmds_pres : ∀ (cs : List Cmd) (s s' : Renderer),
    execCmds cs s = some s' → Pres s s'
  | [], s, s', hE => by
      simp only [execCmds] at hE
      injection hE with hE
      subst hE
      exact Pres.same s
  | c :: cs, s, s', hE => by
      simp only [execCmds] at hE
      split at hE
      · exact absurd hE (by simp)
      · rename_i s1 heq1
        exact (execCmd_pres c s s1 heq1).comp (execCmds_pres cs s1 s' hE)

end

theorem handle_new_shape_total (s : Renderer) (w h : ℚ)
    (hne : s.layout_stack ≠ []) : ∃ s', s.handle_new_shape w h = some s' := by
  unfold Renderer.handle_new_shape
  split
  · rename_i heq
    exact absurd heq hne
  · exact ⟨_, rfl⟩
  · exact ⟨_, rfl⟩

theorem space_total (s : Renderer) (n : ℚ)
    (hne : s.layout_stack ≠ []) : ∃ s', s.space n = some s' := by
  unfold Renderer.space
  split
  · rename_i heq
    exact absurd heq hne
  · exact ⟨_, rfl⟩
  · exact ⟨_, rfl⟩

theorem pres_layout_ne_nil {s s' : Renderer} (hp : Pres s s')
    (hne : s.layout_stack ≠ []) : s'.layout_stack ≠ [] := by
  intro hnil
  have hl := hp.llen
  rw [hnil] at hl
  exact hne (List.length_eq_zero.mp hl.symm)

mutual

theorem execCmd_total : ∀ (c : Cmd) (s : Renderer), s.layout_stack ≠ [] →
    ∃ s', execCmd c s = some s'
  | .rectangle w h, s, hne => by
      simp only [execCmd]
      exact handle_new_shape_total s w h hne
  | .text w h, s, hne => by
      simp only [execCmd]
      exact handle_new_shape_total s w h hne
  | .texture w h, s, hne => by
      simp only [execCmd]
      exact handle_new_shape_total s w h hne
  | .label mw pl pr pt pb tw fs dw dh, s, hne => by
      simp only [execCmd]
      obtain ⟨s1, hs1⟩ := handle_new_shape_total s
        ((max tw mw) + pl + pr) (fs + pt + pb - 2 * (3 / 2)) hne
      rw [hs1]
      have hne1 : s1.layout_stack ≠ [] :=
        pres_layout_ne_nil (handle_new_shape_pres hs1) hne
      obtain ⟨s3, hs3⟩ := handle_new_shape_total
        { s1 with cursor := entryCursor s1 (s.cursor.1 + pl) (s.cursor.2 + pt - 2 * 2) }
        dw dh hne1
      simp only [hs1, hs3]
      exact ⟨_, rfl⟩
  | .space n, s, hne => by
      simp only [execCmd]
      exact space_total s n hne
  | .row body, s, hne => by
      simp only [execCmd]
      obtain ⟨s2, hs2⟩ := execCmds_total body
        { s with layout_stack := Layout.Row 0 s.cursor.1 s.cursor.2 :: s.layout_stack }
        (by simp)
      simp only [hs2]
      have hp := execCmds_pres body _ s2 hs2
      have hne2 : s2.layout_stack ≠ [] := pres_layout_ne_nil hp (by simp)
      rcases hstk : s2.layout_stack with _ | ⟨f, rest⟩
      · exact absurd hstk hne2
      · cases f
        · exact ⟨_, rfl⟩
        · exact ⟨_, rfl⟩
  | .col body, s, hne => by
      simp only [execCmd]
      obtain ⟨s2, hs2⟩ := execCmds_total body
        { s with layout_stack := Layout.Col 0 s.cursor.1 s.cursor.2 :: s.layout_stack }
        (by simp)
      simp only [hs2]
      have hp := execCmds_pres body _ s2 hs2
      have hne2 : s2.layout_stack ≠ [] := pres_layout_ne_nil hp (by simp)
      rcases hstk : s2.layout_stack with _ | ⟨f, rest⟩
      · exact absurd hstk hne2
      · cases f
        · exact ⟨_, rfl⟩
        · exact ⟨_, rfl⟩
  | .set_cursor x y body, s, hne => by
      simp only [execCmd]
      obtain ⟨s2, hs2⟩ := execCmds_total body
        { s with cursor := entryCursor s x y } hne
      simp only [hs2]
      exact ⟨_, rfl⟩
  | .move_cursor dx dy body, s, hne => by
      simp only [execCmd]
      obtain ⟨s2, hs2⟩ := execCmds_total body
        { s with cursor := (s.cursor.1 + dx, s.cursor.2 + dy) } hne
      simp only [hs2]
      exact ⟨_, rfl⟩
  | .hitbox id body, s, hne => by
      simp only [execCmd]
      obtain ⟨s2, hs2⟩ := execCmds_total body
        { s with hitbox_stack :=
            Hitbox.new s.cursor.1 s.cursor.2 0 0 :: s.hitbox_stack } hne
      simp only [hs2]
      have hp := execCmds_pres body _ s2 hs2
      have hne2 : s2.hitbox_stack ≠ [] := by
        intro hnil
        have hl := hp.hlen
        rw [hnil] at hl
        simp at hl
      rcases hstk : s2.hitbox_stack with _ | ⟨hb, rest⟩
      · exact absurd hstk hne2
      · exact ⟨_, rfl⟩
  | .consume_input, s, hne => ⟨_, rfl⟩
  | .consume_keys, s, hne => ⟨_, rfl⟩
  | .next_frame vp, s, hne => ⟨_, rfl⟩
  | .done, s, hne => ⟨_, rfl⟩

theorem execCmds_total : ∀ (cs : List Cmd) (s : Renderer),
    s.layout_stack ≠ [] → ∃ s', execCmds cs s = some s'
  | [], s, _ => ⟨s, rfl⟩
  | c :: cs, s, hne => by
      obtain ⟨s1, hs1⟩ := execCmd_total c s hne
      have hne1 : s1.layout_stack ≠ [] :=
        pres_layout_ne_nil (execCmd_pres c s s1 hs1) hne
      obtain ⟨s', hs'⟩ := execCmds_total cs s1 hne1
      refine ⟨s', ?_⟩
      simp only [execCmds, hs1, hs']

end

theorem if_gt_eq_max (a b : ℚ) : (if b > a then b else a) = max a b := by
  rcases le_or_lt b a with h | h
  · rw [if_neg (not_lt.mpr h), max_eq_left h]
  · rw [if_pos h, max_eq_right h.le]

theorem mapLookup_insert {α : Type} (l : List (ℕ × α)) (k : ℕ) (v : α) :
    mapLookup (mapInsert l k v) k = some v := by
  induction l with
  | nil => simp [mapInsert, mapLookup]
  | cons p t ih =>
      obtain ⟨k1, v1⟩ := p
      by_cases h : k1 = k
      · subst h
        simp [mapInsert, mapLookup]
      · simp [mapInsert, mapLookup, h, ih]

theorem mapLookup_none {α : Type} (l : List (ℕ × α)) (k : ℕ) :
    mapLookup l k = none → ∀ p ∈ l, p.1 ≠ k := by
  induction l with
  | nil =>
      intro _ p hp
      cases hp
  | cons q t ih =>
      obtain ⟨k1, v1⟩ := q
      intro h p hp
      by_cases hk : k1 = k
      · rw [mapLookup, if_pos hk] at h
        cases h
      · rw [mapLookup, if_neg hk] at h
        rcases List.mem_cons.mp hp with hp | hp
        · subst hp
          exact hk
        · exact ih h p hp

theorem get_hit_ne {entries : List (ℕ × Hitbox)} {x y : ℚ} {A : ℕ}
    (h : ∀ p ∈ entries, p.1 ≠ A) : get_hit entries x y ≠ some A := by
  intro hc
  unfold get_hit at hc
  cases hf : entries.find? (fun p => p.2.contains_pos x y) with
  | none =>
      rw [hf] at hc
      simp at hc
  | some p =>
      rw [hf] at hc
      simp at hc
      exact h p (List.mem_of_find?_eq_some hf) hc

theorem is_hot_false {r : Renderer} {A : ℕ} (h : r.hot_id ≠ some A) :
    r.is_hot A = false := by
  unfold Renderer.is_hot
  cases hh : r.hot_id with
  | none => rfl
  | some b =>
      rw [hh] at h
      have hb : b ≠ A := fun he => h (by rw [he])
      simp [hb]

theorem handle_new_shape_row {s : Renderer} {acc x y : ℚ}
    {rest : List Layout} (hstk : s.layout_stack = Layout.Row acc x y :: rest)
    (w h : ℚ) :
    s.handle_new_shape w h = some
      { s with cursor := (s.cursor.1 + w, s.cursor.2),
               layout_stack :=
                 Layout.Row (if h > acc then h else acc) x y :: rest,
               hitbox_stack := growTop s.hitbox_stack w h } := by
  unfold Renderer.handle_new_shape
  simp only [hstk]

theorem handle_new_shape_col {s : Renderer} {acc x y : ℚ}
    {rest : List Layout} (hstk : s.layout_stack = Layout.Col acc x y :: rest)
    (w h : ℚ) :
    s.handle_new_shape w h = some
      { s with cursor := (s.cursor.1, s.cursor.2 + h),
               layout_stack :=
                 Layout.Col (if w > acc then w else acc) x y :: rest,
               hitbox_stack := growTop s.hitbox_stack w h } := by
  unfold Renderer.handle_new_shape
  simp only [hstk]

theorem space_row {s : Renderer} {acc x y : ℚ} {rest : List Layout}
    (hstk : s.layout_stack = Layout.Row acc x y :: rest) (n : ℚ) :
    s.space n = some { s with cursor := (s.cursor.1 + n, s.cursor.2) } := by
  unfold Renderer.space
  simp only [hstk]

theorem animate_length (a : Animation) (now : ℚ) :
    (a.animate now).1.length = a.transitions.length := by
  unfold Animation.animate
  split
  · simp
  · simp

/-- C5: in every state reachable from `Renderer::new` by any sequence of the
public operations (row, col, space, rectangle, text, texture, label,
set_cursor, move_cursor, hitbox, frame begin/end, input consumption), the
layout stack is non-empty: execution never hits the
`layout_stack.last().unwrap()` / `pop().unwrap()` panics (`execCmds` never
returns `none`), because the sentinel column context pushed at construction
is never popped.  Since the sequence is arbitrary, this covers every
intermediate state as well. -/
theorem claim_C5_layout_stack_never_empty :
    ∀ (cs : List Cmd), ∃ s', execCmds cs Renderer.new = some s' ∧
      s'.layout_stack ≠ [] := by
  intro cs
  have hne : Renderer.new.layout_stack ≠ [] := by
    simp [Renderer.new]
  obtain ⟨s', hs'⟩ := execCmds_total cs Renderer.new hne
  exact ⟨s', hs', pres_layout_ne_nil (execCmds_pres cs _ s' hs') hne⟩

/-- C8: within one frame the first `consume_input` (resp. `consume_keys`)
returns the whole buffered queue and empties it, any later call of the same
consuming operation in that frame returns the empty list (no modelled
operation ever refills a queue mid-frame), and `Renderer::done` clears both
queues unconditionally at the end of every frame. -/
theorem claim_C8_input_queues_drained :
    ∀ (r : Renderer) (cs : List Cmd),
      ((r.consume_input).1 = r.input ∧ ((r.consume_input).2).input = []) ∧
      (∀ s', execCmds cs (r.consume_input).2 = some s' →
        (s'.consume_input).1 = []) ∧
      ((r.consume_keys).1 = r.keys ∧ ((r.consume_keys).2).keys = []) ∧
      (∀ s', execCmds cs (r.consume_keys).2 = some s' →
        (s'.consume_keys).1 = []) ∧
      ((Renderer.done r).input = [] ∧ (Renderer.done r).keys = []) := by
  intro r cs
  refine ⟨⟨rfl, rfl⟩, ?_, ⟨rfl, rfl⟩, ?_, ⟨rfl, rfl⟩⟩
  · intro s' hE
    have hp := execCmds_pres cs _ s' hE
    rcases hp.inp with h | h
    · exact h
    · exact h
  · intro s' hE
    have hp := execCmds_pres cs _ s' hE
    rcases hp.kys with h | h
    · exact h
    · exact h

/-- Witness for C8 at a concrete renderer and the empty in-frame suffix. -/
theorem claim_C8_witness :
    (((Renderer.new.consume_input).2).consume_input).1 = ([] : List Char) ∧
    (((Renderer.new.consume_keys).2).consume_keys).1 = ([] : List Key) :=
  ⟨(claim_C8_input_queues_drained Renderer.new []).2.1 _ (by simp [execCmds]),
   (claim_C8_input_queues_drained Renderer.new []).2.2.2.1 _
     (by simp [execCmds])⟩

/-- C9: `Renderer::animate::<N>` with `N = transitions.length`.  If no
animation is stored under the id, one is created from the given transitions
and the body receives exactly `N` values; if one is stored, the
`try_into().unwrap()` conversion succeeds exactly when the stored
transition count equals the caller's arity `N`, so under the matching-arity
precondition the fatal branch is unreachable. -/
theorem claim_C9_animate_arity :
    ∀ (r : Renderer) (id : ℕ) (d now : ℚ) (ts : List Transition),
      (mapLookup r.animations id = none →
        ∃ vals r2, r.animate id d ts now = some (vals, r2) ∧
          vals.length = ts.length) ∧
      (∀ a, mapLookup r.animations id = some a →
        ((r.animate id d ts now).isSome = true ↔
          a.transitions.length = ts.length)) := by
  intro r id d now ts
  constructor
  · intro hnone
    unfold Renderer.animate
    simp only [hnone]
    have hlen : ((Animation.new now d ts).animate now).1.length = ts.length :=
      animate_length (Animation.new now d ts) now
    rw [if_pos hlen]
    exact ⟨_, _, rfl, hlen⟩
  · intro a hsome
    unfold Renderer.animate
    simp only [hsome]
    by_cases hlen : ((a.animate now).1).length = ts.length
    · rw [if_pos hlen]
      rw [animate_length] at hlen
      simp [hlen]
    · rw [if_neg hlen]
      rw [animate_length] at hlen
      simp [hlen]

/-- Witness for C9: a fresh id on an empty table gets exactly one value for
one transition; a stored two-transition animation queried with arity one
makes the conversion fail. -/
theorem claim_C9_witness :
    (∃ vals r2,
        Renderer.new.animate 7 100 [Transition.Linear 0 40] 0 =
          some (vals, r2) ∧
        vals.length = [Transition.Linear 0 40].length) ∧
    ((({ Renderer.new with animations :=
          [(5, Animation.new 0 100
                [Transition.Linear 0 40, Transition.Linear 1 2])] } :
        Renderer).animate 5 100 [Transition.Linear 0 40] 0).isSome = true ↔
      [Transition.Linear 0 40, Transition.Linear 1 2].length =
        [Transition.Linear 0 40].length) :=
  ⟨(claim_C9_animate_arity Renderer.new 7 100 0 [Transition.Linear 0 40]).1
      rfl,
   (claim_C9_animate_arity
      { Renderer.new with animations :=
          [(5, Animation.new 0 100
                [Transition.Linear 0 40, Transition.Linear 1 2])] }
      5 100 0 [Transition.Linear 0 40]).2
      (Animation.new 0 100 [Transition.Linear 0 40, Transition.Linear 1 2])
      rfl⟩

/-- C10: a shape extent event grows only the innermost open hitbox — the
rest of the hitbox stack is untouched — and it grows width/height by
componentwise maximum with the shape's own extent, not by the span of
cursor movement; concretely, a hitbox scope containing two rectangles of
widths 20 and 30 laid out in a row advances the cursor by 50 but stores a
hitbox of width `max 20 30 = 30`. -/
theorem claim_C10_hitbox_grows_by_shape_max :
    (∀ (s s' : Renderer) (w h : ℚ) (hb : Hitbox) (rest : List Hitbox),
        s.hitbox_stack = hb :: rest →
        s.handle_new_shape w h = some s' →
        s'.hitbox_stack =
          { hb with width := max hb.width w, height := max hb.height h }
            :: rest) ∧
    (∀ (s : Renderer),
        s.layout_stack = [Layout.Row 0 0 0] →
        s.cursor = (0, 0) →
        s.hitbox_stack = [] →
        ∃ s', execCmd (.hitbox 1 [.rectangle 20 10, .rectangle 30 10]) s =
            some s' ∧
          mapLookup s'.hitboxes 1 =
            some { x := 0, y := 0, height := 10, width := 30 } ∧
          s'.cursor = (50, 0)) := by
  constructor
  · intro s s' w h hb rest hhb hE
    unfold Renderer.handle_new_shape at hE
    split at hE
    · exact absurd hE (by simp)
    · injection hE with hE
      subst hE
      simp only [hhb, growTop, if_gt_eq_max]
    · injection hE with hE
      subst hE
      simp only [hhb, growTop, if_gt_eq_max]
  · intro s hls hcur hhb
    obtain ⟨vp, cur, ls, an, mo, inp, ky, aid, hid, hbs, hstk⟩ := s
    obtain rfl : ls = [Layout.Row 0 0 0] := hls
    obtain rfl : cur = ((0 : ℚ), (0 : ℚ)) := hcur
    obtain rfl : hstk = [] := hhb
    simp only [execCmd, execCmds, Renderer.handle_new_shape, growTop,
      Hitbox.new]
    norm_num
    rw [mapLookup_insert]

/-- Witness for C10 at concrete states. -/
theorem claim_C10_witness :
    (∃ s', Renderer.handle_new_shape
        { Renderer.new with
            hitbox_stack := [{ x := 1, y := 2, height := 3, width := 4 }] }
        10 1 = some s' ∧
      s'.hitbox_stack =
        [{ x := 1, y := 2, height := max 3 1, width := max 4 10 }]) ∧
    (∃ s', execCmd (.hitbox 1 [.rectangle 20 10, .rectangle 30 10])
        { Renderer.new with layout_stack := [Layout.Row 0 0 0] } = some s' ∧
      mapLookup s'.hitboxes 1 =
        some { x := 0, y := 0, height := 10, width := 30 } ∧
      s'.cursor = (50, 0)) := by
  constructor
  · have he : Renderer.handle_new_shape
        { Renderer.new with
            hitbox_stack := [{ x := 1, y := 2, height := 3, width := 4 }] }
        10 1 = some
          { Renderer.new with
              cursor := (0, 1),
              layout_stack := [Layout.Col 10 0 0],
              hitbox_stack :=
                [{ x := 1, y := 2, height := 3, width := 10 }] } := by
      simp [Renderer.handle_new_shape, Renderer.new, growTop]
      norm_num
    exact ⟨_, he,
      (claim_C10_hitbox_grows_by_shape_max).1 _ _ 10 1 _ [] rfl he⟩
  · exact (claim_C10_hitbox_grows_by_shape_max).2 _ rfl rfl rfl


/-- C3: for `animate(id, dur, [Linear(0,40)])` with elapsed time `t`, the
value handed to the body is `40 * min(t/dur, 1)`; once `t ≥ dur` the
animation is marked done and every later query returns `40` without looking
at the clock again (for any later `now2`); `reset` clears the done flag and
restarts the clock, so a query at the reset instant (elapsed 0) yields `0`
again. -/
theorem claim_C3_animation_clamp_freeze_reset :
    ∀ (t0 d t tr : ℚ), 0 < d → 0 ≤ t →
      (((Animation.new t0 d [Transition.Linear 0 40]).animate (t0 + t)).1 =
        [40 * min (t / d) 1]) ∧
      (d ≤ t →
        (((Animation.new t0 d [Transition.Linear 0 40]).animate
            (t0 + t)).2.done = true ∧
         ∀ now2 : ℚ,
           ((((Animation.new t0 d [Transition.Linear 0 40]).animate
               (t0 + t)).2).animate now2).1 = [40])) ∧
      (∀ (b : Animation), b.duration = d →
        b.transitions = [Transition.Linear 0 40] →
        ((b.reset tr).done = false ∧ ((b.reset tr).animate tr).1 = [0])) := by
  intro t0 d t tr hd ht
  have harg : t0 + t - t0 = t := by ring
  refine ⟨?_, ?_, ?_⟩
  · simp [Animation.animate, Animation.new, Transition.calculate, harg]
  · intro hdt
    have h1 : 1 ≤ t / d := by
      rw [le_div_iff₀ hd]
      linarith
    constructor
    · simp [Animation.animate, Animation.new, harg, h1]
    · intro now2
      simp [Animation.animate, Animation.new, harg, h1, Transition.get_done]
  · intro b hbd hbt
    refine ⟨rfl, ?_⟩
    simp [Animation.animate, Animation.reset, hbt, Transition.calculate]

/-- Witness for C3 with `t0 = 0`, `dur = 100`, `t = 150`, reset at `7`. -/
theorem claim_C3_witness :
    (((Animation.new 0 100 [Transition.Linear 0 40]).animate (0 + 150)).1 =
      [40 * min (150 / 100) 1]) ∧
    (((Animation.new 0 100 [Transition.Linear 0 40]).animate
        (0 + 150)).2.done = true) ∧
    (((((Animation.new 0 100 [Transition.Linear 0 40]).animate
        (0 + 150)).2).animate 1000000).1 = [40]) ∧
    (((Animation.new 3 100 [Transition.Linear 0 40]).reset 7).done = false ∧
     (((Animation.new 3 100 [Transition.Linear 0 40]).reset 7).animate 7).1 =
       [0]) := by
  have h := claim_C3_animation_clamp_freeze_reset 0 100 150 7
    (by norm_num) (by norm_num)
  exact ⟨h.1, (h.2.1 (by norm_num)).1, (h.2.1 (by norm_num)).2 1000000,
    h.2.2 (Animation.new 3 100 [Transition.Linear 0 40]) rfl rfl⟩

/-- C4: `hitbox(id, body)` opens a zero-sized record at the current cursor
and on scope close stores it in the frame table under the id, overwriting
any stale entry (the starting `hitboxes` list is arbitrary, and
`mapLookup` afterwards returns the fresh record); a body drawing one 20x20
rectangle at cursor (5,5) stores exactly `{x:5, y:5, w:20, h:20}`; and
containment is inclusive on all four edges: (5,5) and (25,25) are
contained, (25.1, 10) is not. -/
theorem claim_C4_hitbox_record_and_containment :
    (∀ (s : Renderer) (id : ℕ),
        s.cursor = (5, 5) → s.layout_stack ≠ [] →
        ∃ s', execCmd (.hitbox id [.rectangle 20 20]) s = some s' ∧
          mapLookup s'.hitboxes id =
            some { x := 5, y := 5, height := 20, width := 20 }) ∧
    (∀ (s : Renderer) (id : ℕ),
        ∃ s', execCmd (.hitbox id []) s = some s' ∧
          mapLookup s'.hitboxes id =
            some { x := s.cursor.1, y := s.cursor.2,
                   height := 0, width := 0 }) ∧
    (Hitbox.contains_pos { x := 5, y := 5, height := 20, width := 20 }
        5 5 = true) ∧
    (Hitbox.contains_pos { x := 5, y := 5, height := 20, width := 20 }
        25 25 = true) ∧
    (Hitbox.contains_pos { x := 5, y := 5, height := 20, width := 20 }
        (251 / 10) 10 = false) := by
  refine ⟨?_, ?_, by norm_num [Hitbox.contains_pos], by norm_num [Hitbox.contains_pos], by norm_num [Hitbox.contains_pos]⟩
  · intro s id hcur hne
    obtain ⟨vp, cur, ls, an, mo, inp, ky, aid, hid, hbs, hstk⟩ := s
    obtain rfl : cur = ((5 : ℚ), (5 : ℚ)) := hcur
    rcases ls with _ | ⟨f, rest⟩
    · exact absurd rfl hne
    · cases f with
      | Row acc x y =>
          simp only [execCmd, execCmds, Renderer.handle_new_shape, growTop,
            Hitbox.new]
          norm_num
          rw [mapLookup_insert]
      | Col acc x y =>
          simp only [execCmd, execCmds, Renderer.handle_new_shape, growTop,
            Hitbox.new]
          norm_num
          rw [mapLookup_insert]
  · intro s id
    simp only [execCmd, execCmds, Hitbox.new]
    exact ⟨_, rfl, by rw [mapLookup_insert]⟩

/-- Witness for C4 at a concrete renderer with cursor (5,5). -/
theorem claim_C4_witness :
    ∃ s', execCmd (.hitbox 3 [.rectangle 20 20])
        { Renderer.new with cursor := (5, 5) } = some s' ∧
      mapLookup s'.hitboxes 3 =
        some { x := 5, y := 5, height := 20, width := 20 } :=
  claim_C4_hitbox_record_and_containment.1
    { Renderer.new with cursor := (5, 5) } 3 rfl (by simp [Renderer.new])


/-- A 10x10 hitbox at the origin, used in concrete instances. -/
def demoHitbox : Hitbox := { x := 0, y := 0, height := 10, width := 10 }

/-- C7 counterexample: the claim says the saved cursor is restored
unconditionally, INCLUDING when the body fails.  In the code the restoring
assignment is a plain statement after the body call, so a body that panics
skips it: with cursor saved at (1,2) and `set_cursor(3,4)`, a body that
panics immediately leaves the renderer (as observed by a caller catching
the unwind) with cursor (3,4), not (1,2). -/
theorem claim_C7_counterexample :
    (Renderer.set_cursor
        { Renderer.new with cursor := (1, 2), viewport := (100, 100) }
        3 4 (fun s => Except.error s) =
      Except.error
        { Renderer.new with cursor := (3, 4), viewport := (100, 100) }) ∧
    (((3 : ℚ), (4 : ℚ)) ≠
      ({ Renderer.new with cursor := (1, 2), viewport := (100, 100) } :
        Renderer).cursor) := by
  constructor
  · simp [Renderer.set_cursor, entryCursor]
  · simp [Renderer.new]

/-- C7 amended: `set_cursor(x, y, body)` / `move_cursor(dx, dy, body)` save
the cursor, set it to (x, y) — a negative coordinate meaning viewport
extent plus the value, i.e. distance from the right/bottom edge —
respectively offset it by (dx, dy), run the body, and restore the saved
cursor when the body RETURNS NORMALLY, keeping every other state change the
body made; if the body panics, the panic propagates and the restore is
skipped. -/
theorem claim_C7_scoped_cursor_restore :
    ∀ (r : Renderer) (x y dx dy : ℚ)
      (f : Renderer → Except Renderer Renderer) (s' : Renderer),
      (f { r with cursor := entryCursor r x y } = Except.ok s' →
        r.set_cursor x y f = Except.ok { s' with cursor := r.cursor }) ∧
      (f { r with cursor := entryCursor r x y } = Except.error s' →
        r.set_cursor x y f = Except.error s') ∧
      (f { r with cursor := (r.cursor.1 + dx, r.cursor.2 + dy) } =
          Except.ok s' →
        r.move_cursor dx dy f = Except.ok { s' with cursor := r.cursor }) ∧
      (f { r with cursor := (r.cursor.1 + dx, r.cursor.2 + dy) } =
          Except.error s' →
        r.move_cursor dx dy f = Except.error s') ∧
      (x < 0 → (entryCursor r x y).1 = r.viewport.1 + x) ∧
      (0 ≤ x → (entryCursor r x y).1 = x) ∧
      (y < 0 → (entryCursor r x y).2 = r.viewport.2 + y) ∧
      (0 ≤ y → (entryCursor r x y).2 = y) := by
  intro r x y dx dy f s'
  refine ⟨?_, ?_, ?_, ?_, ?_, ?_, ?_, ?_⟩
  · intro hf
    unfold Renderer.set_cursor
    simp only [hf]
  · intro hf
    unfold Renderer.set_cursor
    simp only [hf]
  · intro hf
    unfold Renderer.move_cursor
    simp only [hf]
  · intro hf
    unfold Renderer.move_cursor
    simp only [hf]
  · intro hx
    simp [entryCursor, hx]
  · intro hx
    simp [entryCursor, not_lt.mpr hx]
  · intro hy
    simp [entryCursor, hy]
  · intro hy
    simp [entryCursor, not_lt.mpr hy]

/-- Witness for the amended C7 at a concrete renderer, one normally
returning body and one panicking body. -/
theorem claim_C7_witness :
    (Renderer.set_cursor
        { Renderer.new with cursor := (1, 2), viewport := (100, 100) }
        (-80) 0 Except.ok =
      Except.ok
        { Renderer.new with cursor := (1, 2), viewport := (100, 100) }) ∧
    (Renderer.move_cursor
        { Renderer.new with cursor := (1, 2), viewport := (100, 100) }
        5 6 (fun s => Except.error s) =
      Except.error
        { Renderer.new with cursor := (6, 8), viewport := (100, 100) }) ∧
    (entryCursor
        { Renderer.new with cursor := (1, 2), viewport := (100, 100) }
        (-80) 0).1 =
      ({ Renderer.new with cursor := (1, 2), viewport := (100, 100) } :
        Renderer).viewport.1 + (-80) := by
  have h := claim_C7_scoped_cursor_restore
    { Renderer.new with cursor := (1, 2), viewport := (100, 100) }
    (-80) 0 5 6
  refine ⟨?_, ?_, (h Except.ok Renderer.new).2.2.2.2.1 (by norm_num)⟩
  · have h1 := (h Except.ok
      { Renderer.new with
          cursor := entryCursor
            { Renderer.new with cursor := (1, 2), viewport := (100, 100) }
            (-80) 0,
          viewport := (100, 100) }).1 rfl
    simpa using h1
  · have h2 := (h (fun s => Except.error s)
      { Renderer.new with cursor := (6, 8), viewport := (100, 100) }).2.2.2.1
      (by norm_num [Prod.ext_iff])
    simpa using h2

/-- C6 counterexample: `Renderer::get_hit` iterates a
`std::collections::HashMap`, whose iteration order is unspecified — NOT the
insertion order.  For the table holding ids 1 (inserted first) and 2, both
containing the pointer at (5,5), the reversed visiting order is a legal
iteration order and makes `get_hit` return id 2, so "the first-inserted
containing hitbox wins" is false. -/
theorem claim_C6_counterexample :
    (List.Perm [(2, demoHitbox), ((1 : ℕ), demoHitbox)]
      [(1, demoHitbox), (2, demoHitbox)]) ∧
    (get_hit [(1, demoHitbox), (2, demoHitbox)] 5 5 = some 1) ∧
    (get_hit [(2, demoHitbox), (1, demoHitbox)] 5 5 = some 2) ∧
    ¬ (∀ order : List (ℕ × Hitbox),
        List.Perm order [(1, demoHitbox), (2, demoHitbox)] →
        get_hit order 5 5 = some 1) := by
  have hc : demoHitbox.contains_pos 5 5 = true := by
    norm_num [demoHitbox, Hitbox.contains_pos]
  have hswap : List.Perm [(2, demoHitbox), ((1 : ℕ), demoHitbox)]
      [(1, demoHitbox), (2, demoHitbox)] :=
    List.Perm.swap (1, demoHitbox) (2, demoHitbox) []
  have h1 : get_hit [((1 : ℕ), demoHitbox), (2, demoHitbox)] 5 5 = some 1 := by
    simp [get_hit, List.find?_cons, hc]
  have h2 : get_hit [((2 : ℕ), demoHitbox), (1, demoHitbox)] 5 5 = some 2 := by
    simp [get_hit, List.find?_cons, hc]
  refine ⟨hswap, h1, h2, ?_⟩
  intro hall
  have hbad := hall [(2, demoHitbox), (1, demoHitbox)] hswap
  rw [h2] at hbad
  simp at hbad

/-- C6 amended: when the pointer is contained in at least one hitbox of the
previous frame's table, `get_hit` returns the id of the first CONTAINING
entry in the `HashMap`'s (unspecified) iteration order — some stored
containing hitbox, but not necessarily the first-inserted one; when no
stored hitbox contains the pointer it returns `None`. -/
theorem claim_C6_first_in_iteration_order :
    ∀ (tbl order : List (ℕ × Hitbox)) (x y : ℚ),
      List.Perm order tbl →
      ((∃ id, get_hit order x y = some id ∧
          ∃ hb, (id, hb) ∈ tbl ∧ hb.contains_pos x y = true) ∨
       (get_hit order x y = none ∧
        ∀ p ∈ tbl, p.2.contains_pos x y = false)) := by
  intro tbl order x y hperm
  cases hf : order.find? (fun p => p.2.contains_pos x y) with
  | some p =>
      left
      refine ⟨p.1, ?_, p.2, ?_, ?_⟩
      · unfold get_hit
        rw [hf]
        rfl
      · exact hperm.subset (List.mem_of_find?_eq_some hf)
      · have hps := List.find?_some hf
        simpa using hps
  | none =>
      right
      refine ⟨?_, ?_⟩
      · unfold get_hit
        rw [hf]
        rfl
      · intro p hp
        have hnp := List.find?_eq_none.mp hf p (hperm.symm.subset hp)
        simpa using hnp

/-- Witness for the amended C6 on a one-entry table. -/
theorem claim_C6_witness :
    (∃ id, get_hit [((1 : ℕ), demoHitbox)] 5 5 = some id ∧
        ∃ hb, (id, hb) ∈ [((1 : ℕ), demoHitbox)] ∧
          hb.contains_pos 5 5 = true) ∨
    (get_hit [((1 : ℕ), demoHitbox)] 5 5 = none ∧
      ∀ p ∈ [((1 : ℕ), demoHitbox)], p.2.contains_pos 5 5 = false) :=
  claim_C6_first_in_iteration_order [(1, demoHitbox)] [(1, demoHitbox)] 5 5
    (List.Perm.refl _)

/-- C2: at frame start `hot_id` is resolved from the PREVIOUS frame's
hitbox table (over any iteration order of it) and the table is cleared
before the render body runs; a hitbox id A absent from the previous table
cannot be hot anywhere in frame N — the resolved `hot_id` is never A and no
render operation changes `hot_id` — and A can first be hot in frame N+1,
when the table stores A's containing hitbox. -/
theorem claim_C2_hot_id_previous_frame :
    ∀ (r : Renderer) (order : List (ℕ × Hitbox)) (vp : ℚ × ℚ)
      (pre : List Cmd) (A : ℕ),
      List.Perm order r.hitboxes →
      mapLookup r.hitboxes A = none →
      (((frameBegin r order vp).hitboxes = []) ∧
       ((frameBegin r order vp).is_hot A = false) ∧
       (∀ sMid, execCmds pre (frameBegin r order vp) = some sMid →
          sMid.is_hot A = false)) ∧
      (∀ (hbA : Hitbox) (rest : List (ℕ × Hitbox)) (px py : ℚ),
          hbA.contains_pos px py = true →
          get_hit ((A, hbA) :: rest) px py = some A) := by
  intro r order vp pre A hperm hnone
  have hids : ∀ p ∈ order, p.1 ≠ A := by
    intro p hp
    exact mapLookup_none r.hitboxes A hnone p (hperm.subset hp)
  have hhot : get_hit order r.mouse.x r.mouse.y ≠ some A := get_hit_ne hids
  have hfb : (frameBegin r order vp).hot_id =
      get_hit order r.mouse.x r.mouse.y := rfl
  refine ⟨⟨rfl, ?_, ?_⟩, ?_⟩
  · apply is_hot_false
    rw [hfb]
    exact hhot
  · intro sMid hE
    have hp := execCmds_pres pre _ sMid hE
    apply is_hot_false
    rw [hp.hot, hfb]
    exact hhot
  · intro hbA rest px py hc
    simp [get_hit, List.find?_cons, hc]

/-- Witness for C2: previous frame registered only id 0; id 1 is new this
frame and is not hot, while a table holding id 1 makes it hot next frame. -/
theorem claim_C2_witness :
    ((frameBegin
        { Renderer.new with
            hitboxes := [(0, demoHitbox)]
            mouse := { x := 5, y := 5, lmouseclick := false,
                       rmouseclick := false } }
        [(0, demoHitbox)] (0, 0)).is_hot 1 = false) ∧
    get_hit [((1 : ℕ), demoHitbox)] 5 5 = some 1 := by
  have h := claim_C2_hot_id_previous_frame
    { Renderer.new with
        hitboxes := [(0, demoHitbox)]
        mouse := { x := 5, y := 5, lmouseclick := false,
                   rmouseclick := false } }
    [(0, demoHitbox)] (0, 0) [] 1 (List.Perm.refl _) rfl
  exact ⟨h.1.2.1,
    h.2 demoHitbox [] 5 5 (by norm_num [demoHitbox, Hitbox.contains_pos])⟩


/-- One draw step inside a row scope: an extent-reporting shape
(rectangle/text/texture all funnel into `handle_new_shape`) or a
`space(n)` gap. -/
inductive RowItem where
  | shape (width height : ℚ)
  | gap (n : ℚ)
deriving Repr, DecidableEq

/-- The renderer operation a row item performs. -/
def RowItem.toCmd : RowItem → Cmd
  | .shape w h => .rectangle w h
  | .gap n => .space n

/-- Total main-axis advance of a sequence of row items: shape widths plus
gap sizes. -/
def rowAdvance : List RowItem → ℚ
  | [] => 0
  | .shape w _ :: t => w + rowAdvance t
  | .gap n :: t => n + rowAdvance t

/-- The row context's accumulated height after folding a sequence of items
into a starting accumulator, exactly as `handle_new_shape` does (gaps do
not contribute). -/
def rowHeightAcc : List RowItem → ℚ → ℚ
  | [], acc => acc
  | .shape _ h :: t, acc => rowHeightAcc t (if h > acc then h else acc)
  | .gap _ :: t, acc => rowHeightAcc t acc

/-- The maximum of the individual shape heights of a row (0 when there is
no shape; gaps are ignored). -/
def rowMaxHeight : List RowItem → ℚ
  | [] => 0
  | .shape _ h :: t => max h (rowMaxHeight t)
  | .gap _ :: t => rowMaxHeight t

theorem rowMaxHeight_nonneg : ∀ (items : List RowItem),
    0 ≤ rowMaxHeight items := by
  intro items
  induction items with
  | nil => simp [rowMaxHeight]
  | cons it t ih =>
      cases it with
      | shape w hh =>
          simp only [rowMaxHeight]
          exact le_trans ih (le_max_right _ _)
      | gap n => simpa [rowMaxHeight] using ih

theorem rowHeightAcc_max : ∀ (items : List RowItem) (acc : ℚ), 0 ≤ acc →
    rowHeightAcc items acc = max acc (rowMaxHeight items) := by
  intro items
  induction items with
  | nil =>
      intro acc h
      simp [rowHeightAcc, rowMaxHeight, max_eq_left h]
  | cons it t ih =>
      intro acc h
      cases it with
      | shape w hh =>
          simp only [rowHeightAcc, rowMaxHeight, if_gt_eq_max]
          rw [ih (max acc hh) (le_trans h (le_max_left _ _)), max_assoc]
      | gap n =>
          simp only [rowHeightAcc, rowMaxHeight]
          exact ih acc h

theorem rowMaxHeight_ge : ∀ (items : List RowItem) (w h : ℚ),
    RowItem.shape w h ∈ items → h ≤ rowMaxHeight items := by
  intro items
  induction items with
  | nil =>
      intro w h hm
      cases hm
  | cons it t ih =>
      intro w h hm
      cases it with
      | shape w2 h2 =>
          simp only [rowMaxHeight]
          rcases List.mem_cons.mp hm with he | hm2
          · have hh2 : h = h2 := by
              injection he
            rw [hh2]
            exact le_max_left _ _
          · exact le_trans (ih w h hm2) (le_max_right _ _)
      | gap n =>
          simp only [rowMaxHeight]
          rcases List.mem_cons.mp hm with he | hm2
          · simp at he
          · exact ih w h hm2

theorem rowMaxHeight_attained : ∀ (items : List RowItem),
    (∀ w h, RowItem.shape w h ∈ items → 0 ≤ h) →
    rowMaxHeight items = 0 ∨
      ∃ w h, RowItem.shape w h ∈ items ∧ rowMaxHeight items = h := by
  intro items
  induction items with
  | nil =>
      intro _
      exact Or.inl rfl
  | cons it t ih =>
      intro hnn
      have hnn2 : ∀ w h, RowItem.shape w h ∈ t → 0 ≤ h :=
        fun w h hm => hnn w h (List.mem_cons_of_mem _ hm)
      cases it with
      | gap n =>
          rcases ih hnn2 with h0 | ⟨w2, h2, hm2, heq2⟩
          · left
            simp [rowMaxHeight, h0]
          · right
            exact ⟨w2, h2, List.mem_cons_of_mem _ hm2,
              by simp [rowMaxHeight, heq2]⟩
      | shape w hh =>
          rcases le_total hh (rowMaxHeight t) with hle | hle
          · rcases ih hnn2 with h0 | ⟨w2, h2, hm2, heq2⟩
            · have hh0 : 0 ≤ hh := hnn w hh (List.mem_cons_self _ _)
              have hz : hh = 0 := le_antisymm (h0 ▸ hle) hh0
              left
              simp [rowMaxHeight, hz, h0]
            · right
              refine ⟨w2, h2, List.mem_cons_of_mem _ hm2, ?_⟩
              simp only [rowMaxHeight]
              rw [max_eq_right hle, heq2]
          · right
            refine ⟨w, hh, List.mem_cons_self _ _, ?_⟩
            simp only [rowMaxHeight]
            rw [max_eq_left hle]

theorem rowItems_exec :
    ∀ (items : List RowItem) (s : Renderer) (acc x y : ℚ)
      (rest : List Layout),
      s.layout_stack = Layout.Row acc x y :: rest →
      ∃ s', execCmds (items.map RowItem.toCmd) s = some s' ∧
        s'.cursor = (s.cursor.1 + rowAdvance items, s.cursor.2) ∧
        s'.layout_stack = Layout.Row (rowHeightAcc items acc) x y :: rest := by
  intro items
  induction items with
  | nil =>
      intro s acc x y rest hstk
      refine ⟨s, by simp [execCmds], ?_, ?_⟩
      · simp [rowAdvance]
      · simp [rowHeightAcc, hstk]
  | cons it t ih =>
      intro s acc x y rest hstk
      cases it with
      | shape w h =>
          obtain ⟨s', hex, hcur, hstk2⟩ := ih
            { s with cursor := (s.cursor.1 + w, s.cursor.2)
                     layout_stack :=
                       Layout.Row (if h > acc then h else acc) x y :: rest
                     hitbox_stack := growTop s.hitbox_stack w h }
            (if h > acc then h else acc) x y rest rfl
          refine ⟨s', ?_, ?_, ?_⟩
          · simp only [List.map_cons, RowItem.toCmd, execCmds, execCmd,
              handle_new_shape_row hstk, hex]
          · rw [hcur]
            simp [rowAdvance, add_assoc]
          · rw [hstk2]
            simp only [rowHeightAcc]
      | gap n =>
          obtain ⟨s', hex, hcur, hstk2⟩ := ih
            { s with cursor := (s.cursor.1 + n, s.cursor.2) }
            acc x y rest hstk
          refine ⟨s', ?_, ?_, ?_⟩
          · simp only [List.map_cons, RowItem.toCmd, execCmds, execCmd,
              space_row hstk, hex]
          · rw [hcur]
            simp [rowAdvance, add_assoc]
          · rw [hstk2]
            simp only [rowHeightAcc]

theorem row_exec (items : List RowItem) (s : Renderer) :
    ∃ s', execCmd (.row (items.map RowItem.toCmd)) s = some s' ∧
      s'.cursor = (s.cursor.1, s.cursor.2 + rowMaxHeight items) := by
  simp only [execCmd]
  obtain ⟨s2, hex, hcur, hstk⟩ := rowItems_exec items
    { s with layout_stack :=
        Layout.Row 0 s.cursor.1 s.cursor.2 :: s.layout_stack }
    0 s.cursor.1 s.cursor.2 s.layout_stack rfl
  simp only [hex, hstk]
  have hacc : rowHeightAcc items 0 = rowMaxHeight items := by
    rw [rowHeightAcc_max items 0 le_rfl]
    exact max_eq_right (rowMaxHeight_nonneg items)
  exact ⟨_, rfl, by simp [hacc]⟩

/-- The three-rectangles-with-gaps row of the end-to-end example: three
shapes of width 20 separated by `space(10)`. -/
def row3Items (hgt : ℚ) : List RowItem :=
  [RowItem.shape 20 hgt, RowItem.gap 10, RowItem.shape 20 hgt,
   RowItem.gap 10, RowItem.shape 20 hgt]

/-- C1: for every sequence of shape draws and `space` calls inside
`row(body)`: after the whole row the cursor is back at the start x and
moved down by exactly the row height, which is the maximum of the
individual shape heights (`rowMaxHeight`, an attained upper bound of the
heights when they are nonnegative); inside the row, after any prefix the
cursor x has advanced by the sum of the prefix's shape widths and gaps
with y unchanged; a single shape of width w advances x by w and folds its
height into the accumulated maximum; `space(n)` advances x by n and leaves
the layout stack (hence the accumulated height) untouched; and the
three-rectangles example advances the in-row cursor by 3*20 + 2*10 = 80
with row height equal to the rectangle height. -/
theorem claim_C1_row_flow :
    ∀ (items : List RowItem) (s : Renderer),
      (∀ w h, RowItem.shape w h ∈ items → 0 ≤ h) →
      (∃ s', execCmd (.row (items.map RowItem.toCmd)) s = some s' ∧
          s'.cursor = (s.cursor.1, s.cursor.2 + rowMaxHeight items)) ∧
      ((∀ w h, RowItem.shape w h ∈ items → h ≤ rowMaxHeight items) ∧
        (rowMaxHeight items = 0 ∨
          ∃ w h, RowItem.shape w h ∈ items ∧ rowMaxHeight items = h)) ∧
      (∀ pre post, items = pre ++ post →
          ∃ sMid,
            execCmds (pre.map RowItem.toCmd)
              { s with layout_stack :=
                  Layout.Row 0 s.cursor.1 s.cursor.2 :: s.layout_stack } =
              some sMid ∧
            sMid.cursor = (s.cursor.1 + rowAdvance pre, s.cursor.2) ∧
            sMid.layout_stack =
              Layout.Row (rowMaxHeight pre) s.cursor.1 s.cursor.2 ::
                s.layout_stack) ∧
      (∀ (s2 : Renderer) (acc x y : ℚ) (rest : List Layout) (w h : ℚ),
          s2.layout_stack = Layout.Row acc x y :: rest →
          ∃ s3, s2.handle_new_shape w h = some s3 ∧
            s3.cursor = (s2.cursor.1 + w, s2.cursor.2) ∧
            s3.layout_stack = Layout.Row (max acc h) x y :: rest) ∧
      (∀ (s2 : Renderer) (acc x y : ℚ) (rest : List Layout) (n : ℚ),
          s2.layout_stack = Layout.Row acc x y :: rest →
          s2.space n =
            some { s2 with cursor := (s2.cursor.1 + n, s2.cursor.2) }) ∧
      (∀ hgt : ℚ, 0 ≤ hgt →
          rowAdvance (row3Items hgt) = 80 ∧
          rowMaxHeight (row3Items hgt) = hgt ∧
          ∃ s', execCmd (.row ((row3Items hgt).map RowItem.toCmd)) s =
              some s' ∧
            s'.cursor = (s.cursor.1, s.cursor.2 + hgt)) := by
  intro items s hnn
  refine ⟨row_exec items s, ⟨rowMaxHeight_ge items, rowMaxHeight_attained items hnn⟩,
    ?_, ?_, ?_, ?_⟩
  · intro pre post hsplit
    obtain ⟨sMid, hex, hcur, hstk⟩ := rowItems_exec pre
      { s with layout_stack :=
          Layout.Row 0 s.cursor.1 s.cursor.2 :: s.layout_stack }
      0 s.cursor.1 s.cursor.2 s.layout_stack rfl
    have hacc : rowHeightAcc pre 0 = rowMaxHeight pre := by
      rw [rowHeightAcc_max pre 0 le_rfl]
      exact max_eq_right (rowMaxHeight_nonneg pre)
    refine ⟨sMid, hex, hcur, ?_⟩
    rw [hstk, hacc]
  · intro s2 acc x y rest w h hstk2
    refine ⟨_, handle_new_shape_row hstk2 w h, rfl, ?_⟩
    simp [if_gt_eq_max]
  · intro s2 acc x y rest n hstk2
    exact space_row hstk2 n
  · intro hgt h0
    have hm0 : max hgt (0 : ℚ) = hgt := max_eq_left h0
    have hmax : rowMaxHeight (row3Items hgt) = hgt := by
      simp [rowMaxHeight, row3Items, hm0, max_self]
    refine ⟨by norm_num [rowAdvance, row3Items], hmax, ?_⟩
    have hr := row_exec (row3Items hgt) s
    rw [hmax] at hr
    exact hr

/-- Witness for C1: the three-rectangles row at rectangle height 7,
starting from a fresh renderer. -/
theorem claim_C1_witness :
    rowAdvance (row3Items 7) = 80 ∧
    rowMaxHeight (row3Items 7) = 7 ∧
    ∃ s', execCmd (.row ((row3Items 7).map RowItem.toCmd)) Renderer.new =
        some s' ∧
      s'.cursor = (Renderer.new.cursor.1, Renderer.new.cursor.2 + 7) := by
  have hnn : ∀ w h, RowItem.shape w h ∈ row3Items 7 → 0 ≤ h := by
    intro w h hm
    simp only [row3Items, List.mem_cons, List.not_mem_nil, or_false] at hm
    rcases hm with h1 | h1 | h1 | h1 | h1 <;>
      first
        | (cases h1; norm_num)
        | cases h1
  exact (claim_C1_row_flow (row3Items 7) Renderer.new hnn).2.2.2.2.2 7
    (by norm_num)

end Cimir

